import Mathlib

/-!
Verification of the kacemon system monitor against its specification.

The Rust sources are shallowly embedded: Rust `String` becomes `Str`
(a list of byte values), `u64`/`u32`/`usize` become `Nat` (Rust
`saturating_sub` is `Nat` truncated subtraction; `saturating_add` on
`Nat` never saturates, which is faithful for the index/counter ranges
involved), `f32`/`f64` become `FloatVal := Option ℚ` (`none` models
NaN, `some q` an ordered finite value; IEEE ordered comparisons are
total on non-NaN values, and every comparison against NaN is
unordered, which is exactly what this model reproduces), a `HashMap`
becomes an association list with overwriting insert, fallible code
returns `Except`, and the OS probe layer (sysinfo / procfs readings,
terminal size, key events) is passed in as explicit input data.
-/

namespace Kacemon

/-- Rust `String` / `&str`, modelled as its list of byte values. -/
abbrev Str := List Nat

/-- Model of a `f32`/`f64` value: `none` is NaN, `some q` a finite ordered value. -/
abbrev FloatVal := Option ℚ

/-- Lookup in the association-list model of `std::collections::HashMap`. -/
def lookupPrev {α : Type} : List (Str × α) → Str → Option α
  | [], _ => none
  | (k, v) :: rest, key => if k = key then some v else lookupPrev rest key

/-- Overwriting insert in the association-list model of `HashMap::insert`. -/
def insertPrev {α : Type} : List (Str × α) → Str → α → List (Str × α)
  | [], k, v => [(k, v)]
  | (k', v') :: rest, k, v =>
      if k' = k then (k, v) :: rest else (k', v') :: insertPrev rest k v

theorem lookupPrev_insertPrev_ne {α : Type} (m : List (Str × α)) (k k' : Str) (v : α)
    (h : k' ≠ k) : lookupPrev (insertPrev m k v) k' = lookupPrev m k' := by
  induction m with
  | nil => simp [insertPrev, lookupPrev, h, Ne.symm h]
  | cons hd tl ih =>
      obtain ⟨k0, v0⟩ := hd
      by_cases hk : k0 = k
      · subst hk
        simp [insertPrev, lookupPrev, h, Ne.symm h]
      · simp [insertPrev, hk, lookupPrev]
        by_cases hk' : k0 = k'
        · simp [hk']
        · simp [hk', ih]

/-! ## Data model (crates/core/src/model.rs) -/

/-- `model.rs` `NetworkInfo`. -/
structure NetworkInfo where
  interface_name : Str
  rx_bytes : Nat
  tx_bytes : Nat
  rx_bytes_delta : Nat
  tx_bytes_delta : Nat
  rx_packets : Nat
  tx_packets : Nat
  rx_errors : Nat
  tx_errors : Nat
deriving DecidableEq, Repr

/-- `model.rs` `DiskInfo`. -/
structure DiskInfo where
  name : Str
  mount_point : Str
  file_system : Str
  total_space : Nat
  used_space : Nat
  available_space : Nat
  read_bytes : Nat
  write_bytes : Nat
  read_bytes_delta : Nat
  write_bytes_delta : Nat
deriving DecidableEq, Repr

/-! ## Network collector (crates/core/src/metrics/network.rs) -/

/-- One per-interface reading delivered by `sysinfo::Networks` during a poll:
the cumulative counters `total_received`, `total_transmitted`,
`total_packets_received`, `total_packets_transmitted`,
`total_errors_on_received`, `total_errors_on_transmitted`. -/
structure NetReading where
  rx_bytes : Nat
  tx_bytes : Nat
  rx_packets : Nat
  tx_packets : Nat
  rx_errors : Nat
  tx_errors : Nat
deriving DecidableEq, Repr

/-- Stored previous stats per interface: `(rx_bytes, tx_bytes, rx_packets, tx_packets)`. -/
abbrev NetPrev := Nat × Nat × Nat × Nat

/-- The byte string `"lo"`. -/
def loName : Str := [108, 111]

/-- `NetworkCollector::collect`: iterates over the refreshed interface map
(`readings`, keyed by interface name), computes saturating deltas against
`previous_stats`, overwrites the stored stats, and skips loopback and
fully-inactive interfaces.  Returns the built `Vec<NetworkInfo>` together
with the final `previous_stats` map. -/
def NetworkCollector.collect :
    List (Str × NetReading) → List (Str × NetPrev) →
      List NetworkInfo × List (Str × NetPrev)
  | [], previous_stats => ([], previous_stats)
  | (interface_name, data) :: rest, previous_stats =>
      let rx_bytes := data.rx_bytes
      let tx_bytes := data.tx_bytes
      let rx_packets := data.rx_packets
      let tx_packets := data.tx_packets
      let deltas :=
        match lookupPrev previous_stats interface_name with
        | some pv => (rx_bytes - pv.1, tx_bytes - pv.2.1)
        | none => (0, 0)
      let stats' := insertPrev previous_stats interface_name
        (rx_bytes, tx_bytes, rx_packets, tx_packets)
      let restResult := NetworkCollector.collect rest stats'
      if interface_name == loName || loName.isPrefixOf interface_name then
        restResult
      else if rx_bytes == 0 && tx_bytes == 0 && rx_packets == 0 && tx_packets == 0 then
        restResult
      else
        ({ interface_name := interface_name
           rx_bytes := rx_bytes
           tx_bytes := tx_bytes
           rx_bytes_delta := deltas.1
           tx_bytes_delta := deltas.2
           rx_packets := rx_packets
           tx_packets := tx_packets
           rx_errors := data.rx_errors
           tx_errors := data.tx_errors } :: restResult.1, restResult.2)

/-! ## Disk collector (crates/core/src/metrics/disk.rs) -/

/-- One per-disk reading during a poll: the `sysinfo::Disk` fields plus the
`(read_bytes, write_bytes)` pair produced by `get_disk_io_stats` for this
disk name (a platform probe, zero on platforms without an implementation). -/
structure DiskReading where
  name : Str
  mount_point : Str
  file_system : Str
  total_space : Nat
  available_space : Nat
  read_bytes : Nat
  write_bytes : Nat
deriving DecidableEq, Repr

/-- Stored previous stats per disk: `(read_bytes, write_bytes)`. -/
abbrev DiskPrev := Nat × Nat

/-- `DiskCollector::collect`: iterates over the refreshed disk list, computes
saturating I/O deltas against `previous_stats`, overwrites the stored stats,
and pushes a `DiskInfo` for every disk. -/
def DiskCollector.collect :
    List DiskReading → List (Str × DiskPrev) → List DiskInfo × List (Str × DiskPrev)
  | [], previous_stats => ([], previous_stats)
  | disk :: rest, previous_stats =>
      let used_space := disk.total_space - disk.available_space
      let deltas :=
        match lookupPrev previous_stats disk.name with
        | some pv => (disk.read_bytes - pv.1, disk.write_bytes - pv.2)
        | none => (0, 0)
      let stats' := insertPrev previous_stats disk.name (disk.read_bytes, disk.write_bytes)
      let restResult := DiskCollector.collect rest stats'
      ({ name := disk.name
         mount_point := disk.mount_point
         file_system := disk.file_system
         total_space := disk.total_space
         used_space := used_space
         available_space := disk.available_space
         read_bytes := disk.read_bytes
         write_bytes := disk.write_bytes
         read_bytes_delta := deltas.1
         write_bytes_delta := deltas.2 } :: restResult.1, restResult.2)

/-- `Nat` truncated subtraction is exactly the saturating difference
`max 0 (a - b)` over the integers. -/
theorem natSub_eq_max (a b : Nat) : ((a - b : Nat) : Int) = max 0 ((a : Int) - b) := by
  rcases Nat.le_total a b with h | h
  · rw [Nat.sub_eq_zero_of_le h, max_eq_left (by omega : (a : Int) - b ≤ 0)]
    simp
  · rw [Nat.cast_sub h, max_eq_right (by omega : (0 : Int) ≤ (a : Int) - b)]

/-- The per-poll delta contract of an emitted `NetworkInfo` against the
`previous_stats` map that was in place when the poll started. -/
def netDeltaOk (prev : List (Str × NetPrev)) (inf : NetworkInfo) : Prop :=
  match lookupPrev prev inf.interface_name with
  | some pv =>
      (inf.rx_bytes_delta : Int) = max 0 ((inf.rx_bytes : Int) - pv.1)
      ∧ (inf.tx_bytes_delta : Int) = max 0 ((inf.tx_bytes : Int) - pv.2.1)
  | none => inf.rx_bytes_delta = 0 ∧ inf.tx_bytes_delta = 0

/-- The per-poll delta contract of an emitted `DiskInfo` against the
`previous_stats` map that was in place when the poll started. -/
def diskDeltaOk (prev : List (Str × DiskPrev)) (di : DiskInfo) : Prop :=
  match lookupPrev prev di.name with
  | some pv =>
      (di.read_bytes_delta : Int) = max 0 ((di.read_bytes : Int) - pv.1)
      ∧ (di.write_bytes_delta : Int) = max 0 ((di.write_bytes : Int) - pv.2)
  | none => di.read_bytes_delta = 0 ∧ di.write_bytes_delta = 0

theorem net_collect_mem_name (rs : List (Str × NetReading)) (prev : List (Str × NetPrev))
    (inf : NetworkInfo) (h : inf ∈ (NetworkCollector.collect rs prev).1) :
    inf.interface_name ∈ rs.map Prod.fst := by
  induction rs generalizing prev with
  | nil => simp [NetworkCollector.collect] at h
  | cons hd tl ih =>
      obtain ⟨nm, data⟩ := hd
      simp only [NetworkCollector.collect] at h
      split at h
      · exact List.mem_cons_of_mem _ (ih _ h)
      · split at h
        · exact List.mem_cons_of_mem _ (ih _ h)
        · rcases List.mem_cons.mp h with h' | h'
          · subst h'
            exact List.mem_cons_self _ _
          · exact List.mem_cons_of_mem _ (ih _ h')

theorem disk_collect_mem_name (rs : List DiskReading) (prev : List (Str × DiskPrev))
    (di : DiskInfo) (h : di ∈ (DiskCollector.collect rs prev).1) :
    di.name ∈ rs.map DiskReading.name := by
  induction rs generalizing prev with
  | nil => simp [DiskCollector.collect] at h
  | cons hd tl ih =>
      simp only [DiskCollector.collect] at h
      rcases List.mem_cons.mp h with h' | h'
      · subst h'
        exact List.mem_cons_self _ _
      · exact List.mem_cons_of_mem _ (ih _ h')

theorem net_collect_deltas (rs : List (Str × NetReading)) (prev : List (Str × NetPrev))
    (hnd : (rs.map Prod.fst).Nodup) :
    ∀ inf ∈ (NetworkCollector.collect rs prev).1, netDeltaOk prev inf := by
  induction rs generalizing prev with
  | nil => simp [NetworkCollector.collect]
  | cons hd tl ih =>
      obtain ⟨nm, data⟩ := hd
      simp only [List.map_cons, List.nodup_cons] at hnd
      intro inf h
      have key : ∀ inf' ∈ (NetworkCollector.collect tl
          (insertPrev prev nm (data.rx_bytes, data.tx_bytes, data.rx_packets, data.tx_packets))).1,
          netDeltaOk prev inf' := by
        intro inf' h'
        have hmem := net_collect_mem_name tl _ inf' h'
        have hne : inf'.interface_name ≠ nm := by
          intro hEq
          exact hnd.1 (hEq ▸ hmem)
        have := ih _ hnd.2 inf' h'
        unfold netDeltaOk at this ⊢
        rwa [lookupPrev_insertPrev_ne _ _ _ _ hne] at this
      simp only [NetworkCollector.collect] at h
      split at h
      · exact key inf h
      · split at h
        · exact key inf h
        · rcases List.mem_cons.mp h with h' | h'
          · subst h'
            unfold netDeltaOk
            simp only
            cases hl : lookupPrev prev nm with
            | none => simp [hl]
            | some pv => simp [hl, natSub_eq_max]
          · exact key inf h'

theorem disk_collect_deltas (rs : List DiskReading) (prev : List (Str × DiskPrev))
    (hnd : (rs.map DiskReading.name).Nodup) :
    ∀ di ∈ (DiskCollector.collect rs prev).1, diskDeltaOk prev di := by
  induction rs generalizing prev with
  | nil => simp [DiskCollector.collect]
  | cons hd tl ih =>
      simp only [List.map_cons, List.nodup_cons] at hnd
      intro di h
      simp only [DiskCollector.collect] at h
      rcases List.mem_cons.mp h with h' | h'
      · subst h'
        unfold diskDeltaOk
        simp only
        cases hl : lookupPrev prev hd.name with
        | none => simp [hl]
        | some pv => simp [hl, natSub_eq_max]
      · have hmem := disk_collect_mem_name tl _ di h'
        have hne : di.name ≠ hd.name := by
          intro hEq
          exact hnd.1 (hEq ▸ hmem)
        have := ih _ hnd.2 di h'
        unfold diskDeltaOk at this ⊢
        rwa [lookupPrev_insertPrev_ne _ _ _ _ hne] at this

/-- C1: for every delta-tracked entity (network interface, disk) and every
poll, the per-poll delta equals the saturating difference
`max 0 (current - previous)` when the entity key was present in the previous
poll's stored stats, and equals `0` when the key is observed for the first
time; in particular every delta is non-negative (it is the `max` with `0`)
even when the underlying counter decreased. -/
theorem C1_delta_saturating
    (nrs : List (Str × NetReading)) (nprev : List (Str × NetPrev))
    (drs : List DiskReading) (dprev : List (Str × DiskPrev))
    (hn : (nrs.map Prod.fst).Nodup) (hd : (drs.map DiskReading.name).Nodup) :
    (∀ inf ∈ (NetworkCollector.collect nrs nprev).1, netDeltaOk nprev inf)
    ∧ (∀ di ∈ (DiskCollector.collect drs dprev).1, diskDeltaOk dprev di) :=
  ⟨net_collect_deltas nrs nprev hn, disk_collect_deltas drs dprev hd⟩

/-- Witness for C1 at concrete data: interface `eth0` seen before with
counters that went backwards (reset: 100 → 40), one first-seen disk. -/
theorem C1_delta_saturating_witness :
    ((([([101], ⟨40, 7, 3, 4, 0, 0⟩)] : List (Str × NetReading)).map Prod.fst).Nodup
    ∧ (([⟨[115], [47], [101], 50, 20, 9, 9⟩] : List DiskReading).map DiskReading.name).Nodup)
    ∧ (∀ inf ∈ (NetworkCollector.collect [([101], ⟨40, 7, 3, 4, 0, 0⟩)]
          [([101], (100, 2, 1, 1))]).1, netDeltaOk [([101], (100, 2, 1, 1))] inf)
    ∧ (∀ di ∈ (DiskCollector.collect [⟨[115], [47], [101], 50, 20, 9, 9⟩] []).1,
          diskDeltaOk [] di) := by
  refine ⟨⟨by decide, by decide⟩, ?_⟩
  exact C1_delta_saturating _ _ _ _ (by decide) (by decide)

/-! ## Remaining data model (crates/core/src/model.rs, error.rs) -/

/-- `error.rs` `CoreError` (the `cfg`-gated procfs/unix variants omitted;
`Io`/`Json` wrapped causes reduced to their message). -/
inductive CoreError where
  | systemInfoErr : Str → CoreError
  | processInfoErr : Str → CoreError
  | configErr : Str → CoreError
  | platformErr : Str → CoreError
  | ioErr : Str → CoreError
  | jsonErr : Str → CoreError
  | permissionDenied : Str → CoreError
  | unsupportedPlatform : Str → CoreError
deriving DecidableEq, Repr

/-- `model.rs` `SystemInfo` (`SystemTime`/`Duration` as seconds, loads as floats). -/
structure SystemInfo where
  hostname : Str
  os_name : Str
  os_version : Str
  uptime : Nat
  boot_time : Nat
  load_avg_1 : FloatVal
  load_avg_5 : FloatVal
  load_avg_15 : FloatVal
deriving DecidableEq, Repr

/-- `model.rs` `CpuCore`. -/
structure CpuCore where
  id : Nat
  name : Str
  usage_percent : FloatVal
  frequency : Nat
deriving DecidableEq, Repr

/-- `model.rs` `MemoryInfo`. -/
structure MemoryInfo where
  total : Nat
  used : Nat
  available : Nat
  free : Nat
  buffers : Nat
  cached : Nat
  swap_total : Nat
  swap_used : Nat
  swap_free : Nat
deriving DecidableEq, Repr

/-- `model.rs` `TemperatureInfo`. -/
structure TemperatureInfo where
  label : Str
  temperature : FloatVal
  critical : Option FloatVal
  max : Option FloatVal
deriving DecidableEq, Repr

/-- `model.rs` `ProcessState`. -/
inductive ProcessState where
  | Running | Sleeping | Waiting | Zombie | Stopped | Paging | Dead | Unknown
deriving DecidableEq, Repr

/-- `model.rs` `ProcessInfo` (`SystemTime` as seconds). -/
structure ProcessInfo where
  pid : Nat
  name : Str
  cmd : List Str
  user : Str
  cpu_percent : FloatVal
  memory_percent : FloatVal
  memory_rss : Nat
  memory_vsz : Nat
  threads : Nat
  state : ProcessState
  start_time : Nat
  parent_pid : Option Nat
  cgroup : Option Str
deriving DecidableEq, Repr

/-- `model.rs` `SystemSnapshot` (`SystemTime` timestamp as seconds). -/
structure SystemSnapshot where
  timestamp : Nat
  system : SystemInfo
  cpu_cores : List CpuCore
  memory : MemoryInfo
  disks : List DiskInfo
  networks : List NetworkInfo
  temperatures : List TemperatureInfo
  processes : List ProcessInfo
deriving DecidableEq, Repr

/-! ## Snapshot aggregator (crates/core/src/metrics/mod.rs)

`MetricsCollector::collect` runs the seven entity readers in a fixed
order, each behind the `?` operator.  The embedding takes the outcome each
reader would produce this tick as an explicit `Except` input (the readers
are external probes) and mirrors the `?` control flow. -/

/-- `MetricsCollector::collect` as written: seven `?`-chained reader calls,
then one `SystemSnapshot` sharing a single timestamp. -/
def MetricsCollector.collect (timestamp : Nat)
    (rSystem : Except CoreError SystemInfo)
    (rCpu : Except CoreError (List CpuCore))
    (rMemory : Except CoreError MemoryInfo)
    (rDisk : Except CoreError (List DiskInfo))
    (rNetwork : Except CoreError (List NetworkInfo))
    (rTemperature : Except CoreError (List TemperatureInfo))
    (rProcess : Except CoreError (List ProcessInfo)) :
    Except CoreError SystemSnapshot := do
  let system ← rSystem
  let cpu_cores ← rCpu
  let memory ← rMemory
  let disks ← rDisk
  let networks ← rNetwork
  let temperatures ← rTemperature
  let processes ← rProcess
  pure { timestamp := timestamp
         system := system
         cpu_cores := cpu_cores
         memory := memory
         disks := disks
         networks := networks
         temperatures := temperatures
         processes := processes }

/-- `MetricsCollector::collect` instrumented with the number of entity
readers actually invoked: each `?` returns early, so a failing reader stops
the sequence.  Unrolled to mirror the source's evaluation order. -/
def MetricsCollector.collectTrace (timestamp : Nat)
    (rSystem : Except CoreError SystemInfo)
    (rCpu : Except CoreError (List CpuCore))
    (rMemory : Except CoreError MemoryInfo)
    (rDisk : Except CoreError (List DiskInfo))
    (rNetwork : Except CoreError (List NetworkInfo))
    (rTemperature : Except CoreError (List TemperatureInfo))
    (rProcess : Except CoreError (List ProcessInfo)) :
    Except CoreError SystemSnapshot × Nat :=
  match rSystem with
  | .error e => (.error e, 1)
  | .ok system =>
  match rCpu with
  | .error e => (.error e, 2)
  | .ok cpu_cores =>
  match rMemory with
  | .error e => (.error e, 3)
  | .ok memory =>
  match rDisk with
  | .error e => (.error e, 4)
  | .ok disks =>
  match rNetwork with
  | .error e => (.error e, 5)
  | .ok networks =>
  match rTemperature with
  | .error e => (.error e, 6)
  | .ok temperatures =>
  match rProcess with
  | .error e => (.error e, 7)
  | .ok processes =>
    (.ok { timestamp := timestamp
           system := system
           cpu_cores := cpu_cores
           memory := memory
           disks := disks
           networks := networks
           temperatures := temperatures
           processes := processes }, 7)

/-- Number of readers a `?`-chain invokes, given which readers would
succeed, in order: every reader up to and including the first failing one,
all of them when none fails. -/
def invokedCountSpec : List Bool → Nat
  | [] => 0
  | true :: rest => 1 + invokedCountSpec rest
  | false :: _ => 1

/-- C2, as stated, is false: during one `MetricsCollector::collect`, a
failing reader (here: disk) aborts the whole snapshot via `?` — the
remaining readers are skipped (only 4 of 7 run) and no snapshot is
returned, instead of degrading only the disk section. -/
theorem C2_counterexample :
    (MetricsCollector.collectTrace 0 (.ok ⟨[], [], [], 0, 0, none, none, none⟩)
        (.ok []) (.ok ⟨0, 0, 0, 0, 0, 0, 0, 0, 0⟩) (.error (.platformErr []))
        (.ok []) (.ok []) (.ok [])).2 = 4
    ∧ ¬ (MetricsCollector.collectTrace 0 (.ok ⟨[], [], [], 0, 0, none, none, none⟩)
        (.ok []) (.ok ⟨0, 0, 0, 0, 0, 0, 0, 0, 0⟩) (.error (.platformErr []))
        (.ok []) (.ok []) (.ok [])).1.isOk := by
  exact ⟨rfl, by decide⟩

set_option maxHeartbeats 2000000 in
/-- C2 amended: `collect` invokes the readers in the fixed order system,
cpu, memory, disk, network, temperature, process, stopping at the first
failure: exactly the readers up to and including the first failing one are
invoked, the first failure is returned as the error of the whole call (no
degraded snapshot), and a snapshot is produced iff every reader succeeded. -/
theorem C2_collect_aborts_on_first_failure (timestamp : Nat)
    (rSystem : Except CoreError SystemInfo)
    (rCpu : Except CoreError (List CpuCore))
    (rMemory : Except CoreError MemoryInfo)
    (rDisk : Except CoreError (List DiskInfo))
    (rNetwork : Except CoreError (List NetworkInfo))
    (rTemperature : Except CoreError (List TemperatureInfo))
    (rProcess : Except CoreError (List ProcessInfo)) :
    (MetricsCollector.collectTrace timestamp rSystem rCpu rMemory rDisk
        rNetwork rTemperature rProcess).1
      = MetricsCollector.collect timestamp rSystem rCpu rMemory rDisk
        rNetwork rTemperature rProcess
    ∧ (MetricsCollector.collectTrace timestamp rSystem rCpu rMemory rDisk
        rNetwork rTemperature rProcess).2
      = invokedCountSpec [rSystem.isOk, rCpu.isOk, rMemory.isOk, rDisk.isOk,
          rNetwork.isOk, rTemperature.isOk, rProcess.isOk]
    ∧ ((MetricsCollector.collect timestamp rSystem rCpu rMemory rDisk
        rNetwork rTemperature rProcess).isOk
      ↔ rSystem.isOk ∧ rCpu.isOk ∧ rMemory.isOk ∧ rDisk.isOk
          ∧ rNetwork.isOk ∧ rTemperature.isOk ∧ rProcess.isOk) := by
  refine ⟨?_, ?_, ?_⟩ <;>
    cases rSystem <;> cases rCpu <;> cases rMemory <;> cases rDisk <;>
      cases rNetwork <;> cases rTemperature <;> cases rProcess <;>
      first
        | rfl
        | simp [MetricsCollector.collect, Except.isOk, Except.toBool,
            Except.bind, Bind.bind, Except.pure, Pure.pure]

/-! ## Sort key (crates/core/src/model.rs `SortKey`) -/

/-- `model.rs` `SortKey`. -/
inductive SortKey where
  | Cpu | Memory | Pid | Name
deriving DecidableEq, Repr

/-- `SortKey::next`: the fixed cycling order Cpu → Memory → Pid → Name → Cpu. -/
def SortKey.next : SortKey → SortKey
  | .Cpu => .Memory
  | .Memory => .Pid
  | .Pid => .Name
  | .Name => .Cpu

/-! ## Process filtering (crates/tui/src/app.rs `App::get_filtered_processes`) -/

/-- Per-byte ASCII lowercasing, the model of Rust `str::to_lowercase` on the
byte strings considered here. -/
def toLowerByte (c : Nat) : Nat := if 65 ≤ c ∧ c ≤ 90 then c + 32 else c

/-- `str::to_lowercase`. -/
def strToLower (s : Str) : Str := s.map toLowerByte

/-- Rust `str::contains(needle)`: substring containment. -/
def strContains (haystack needle : Str) : Bool := decide (needle <:+: haystack)

/-- `Vec<String>::join(" ")`. -/
def joinSpace (parts : List Str) : Str := List.intercalate [32] parts

/-- `u32::to_string`: decimal digit string of the pid. -/
def natToStr (n : Nat) : Str := (Nat.toDigits 10 n).map Char.toNat

/-- `App::get_filtered_processes`: empty filter returns the input unchanged,
otherwise keeps processes whose lowercased name, space-joined command,
lowercased user, or decimal pid string contains the lowercased filter text. -/
def App.get_filtered_processes (filter_text : Str) (processes : List ProcessInfo) :
    List ProcessInfo :=
  if filter_text.isEmpty then
    processes
  else
    let filter_lower := strToLower filter_text
    processes.filter fun p =>
      strContains (strToLower p.name) filter_lower
      || strContains (strToLower (joinSpace p.cmd)) filter_lower
      || strContains (strToLower p.user) filter_lower
      || strContains (natToStr p.pid) filter_lower

/-- C5: filtering keeps exactly the processes for which the (lowercased)
filter text is a substring of the lowercased process name, OR of the
lowercased space-joined command arguments, OR of the lowercased owning
user, OR of the decimal string of the pid; the empty filter text returns
the entire input list unmodified. -/
theorem C5_filter_characterisation (ft : Str) (ps : List ProcessInfo) :
    (ft = [] → App.get_filtered_processes ft ps = ps)
    ∧ (ft ≠ [] → ∀ p, p ∈ App.get_filtered_processes ft ps ↔
        p ∈ ps ∧
          (strToLower ft <:+: strToLower p.name
           ∨ strToLower ft <:+: strToLower (joinSpace p.cmd)
           ∨ strToLower ft <:+: strToLower p.user
           ∨ strToLower ft <:+: natToStr p.pid)) := by
  constructor
  · intro h
    subst h
    simp [App.get_filtered_processes]
  · intro h p
    rw [App.get_filtered_processes, if_neg (by simpa [List.isEmpty_iff] using h)]
    simp only [List.mem_filter, strContains, Bool.or_eq_true, decide_eq_true_eq]
    tauto

/-- Witness for C5 at concrete inputs: an empty filter is the identity, and
the filter text `"ab"` (lowercased from `"AB"`) matches a process by name
substring. -/
theorem C5_filter_characterisation_witness :
    (App.get_filtered_processes []
        [{ pid := 3, name := [120, 97, 98], cmd := [], user := [],
           cpu_percent := some 0, memory_percent := some 0, memory_rss := 0,
           memory_vsz := 0, threads := 0, state := .Running, start_time := 0,
           parent_pid := none, cgroup := none }]
      = [{ pid := 3, name := [120, 97, 98], cmd := [], user := [],
           cpu_percent := some 0, memory_percent := some 0, memory_rss := 0,
           memory_vsz := 0, threads := 0, state := .Running, start_time := 0,
           parent_pid := none, cgroup := none }])
    ∧ ({ pid := 3, name := [120, 97, 98], cmd := [], user := [],
         cpu_percent := some 0, memory_percent := some 0, memory_rss := 0,
         memory_vsz := 0, threads := 0, state := .Running, start_time := 0,
         parent_pid := none, cgroup := none } ∈
        App.get_filtered_processes [65, 66]
          [{ pid := 3, name := [120, 97, 98], cmd := [], user := [],
             cpu_percent := some 0, memory_percent := some 0, memory_rss := 0,
             memory_vsz := 0, threads := 0, state := .Running, start_time := 0,
             parent_pid := none, cgroup := none }]) := by
  constructor
  · exact (C5_filter_characterisation [] _).1 rfl
  · exact ((C5_filter_characterisation [65, 66] _).2 (by decide) _).mpr
      ⟨by decide, by decide⟩

/-! ## Input events and application state
(crates/tui/src/input.rs, crates/tui/src/app.rs) -/

/-- `input.rs` `InputEvent`. -/
inductive InputEvent where
  | MoveUp | MoveDown | PageUp | PageDown | Home | End
  | CycleSort | StartFilter | ClearFilter
  | FilterChar (c : Nat)
  | FilterBackspace
  | ToggleColumns | ChangeRefreshRate | ToggleTreeView
  | KillProcess | ShowHelp | Quit | Resize | Tick | Unknown
deriving DecidableEq, Repr

/-- `crossterm` key codes reaching `InputHandler::handle_key_event`
(`CharK` carries the character's code, `OtherK` stands for any other key). -/
inductive KeyCode where
  | Up | Down | PageUpKey | PageDownKey | HomeKey | EndKey
  | Esc | Enter | Backspace
  | CharK (c : Nat)
  | OtherK
deriving DecidableEq, Repr

/-- A key event: code plus whether the CONTROL modifier is held. -/
structure KeyEvent where
  code : KeyCode
  ctrl : Bool
deriving DecidableEq, Repr

/-- The view-relevant state of `app.rs` `App`, together with the
`in_filter_mode` flag of its `input_handler` field.  `table_height` stands
for `layout.main_layout().table.height` at the current terminal size
(the layout is recomputed from the terminal, not from this state). -/
structure App where
  current_snapshot : Option SystemSnapshot
  selected_process_index : Nat
  table_start_index : Nat
  current_sort : SortKey
  sort_reverse : Bool
  filter_text : Str
  show_help : Bool
  quit_requested : Bool
  tree_view : Bool
  in_filter_mode : Bool
  table_height : Nat
deriving DecidableEq, Repr

/-- `App::get_visible_rows`: table height minus the header row
(`u16::saturating_sub`). -/
def App.get_visible_rows (app : App) : Nat := app.table_height - 1

/-- `App::clamp_selection`.  With a snapshot present: an empty filtered
list resets selection and scroll to 0; otherwise the selection is clamped
to `count - 1` and the window start is moved the minimum amount needed to
keep the selection visible.  (In the `visible_rows = 0` corner the source
computes `visible_rows - 1` with plain `usize` subtraction, a debug-mode
panic; `Nat` subtraction models the truncation.) -/
def App.clamp_selection (app : App) : App :=
  match app.current_snapshot with
  | none => app
  | some snapshot =>
      let process_count := (App.get_filtered_processes app.filter_text snapshot.processes).length
      if process_count = 0 then
        { app with selected_process_index := 0, table_start_index := 0 }
      else
        let sel := min app.selected_process_index (process_count - 1)
        let visible_rows := app.get_visible_rows
        let start :=
          if sel < app.table_start_index then sel
          else if app.table_start_index + visible_rows ≤ sel then sel - (visible_rows - 1)
          else app.table_start_index
        { app with selected_process_index := sel, table_start_index := start }

/-- `App::move_selection`: saturating index arithmetic followed by
`clamp_selection`. -/
def App.move_selection (app : App) (delta : Int) : App :=
  let new_index :=
    if delta < 0 then app.selected_process_index - (-delta).toNat
    else app.selected_process_index + delta.toNat
  App.clamp_selection { app with selected_process_index := new_index }

/-- The `match` arms of `App::handle_event` (everything before the final
`clamp_selection` call).  The first four arms match before the
`_ if self.show_help` guard, exactly as in the source. -/
def App.apply_event (app : App) (event : InputEvent) : App :=
  match event with
  | .Quit => { app with quit_requested := true }
  | .ShowHelp => { app with show_help := !app.show_help }
  | .Resize => app
  | .Tick => app
  | e =>
    if app.show_help then app
    else
      match e with
      | .MoveUp => app.move_selection (-1)
      | .MoveDown => app.move_selection 1
      | .PageUp => app.move_selection (-(app.get_visible_rows : Int))
      | .PageDown => app.move_selection (app.get_visible_rows : Int)
      | .Home => { app with selected_process_index := 0 }
      | .End =>
          match app.current_snapshot with
          | some snapshot =>
              { app with selected_process_index :=
                  (App.get_filtered_processes app.filter_text snapshot.processes).length - 1 }
          | none => app
      | .CycleSort =>
          let ns := app.current_sort.next
          { app with current_sort := ns,
                     sort_reverse := ns = SortKey.Cpu ∨ ns = SortKey.Memory }
      | .StartFilter => app
      | .ClearFilter => { app with filter_text := [], in_filter_mode := false }
      | .FilterChar c => { app with filter_text := app.filter_text ++ [c] }
      | .FilterBackspace => { app with filter_text := app.filter_text.dropLast }
      | .ToggleTreeView => { app with tree_view := !app.tree_view }
      | .KillProcess => app
      | _ => app

/-- `App::handle_event`: the event dispatch followed by the unconditional
trailing `clamp_selection`. -/
def App.handle_event (app : App) (event : InputEvent) : App :=
  (app.apply_event event).clamp_selection

/-- `App::update_data`: replaces the current snapshot with the collector's
fresh one.  It does not touch selection, scroll, or filter. -/
def App.update_data (app : App) (snapshot : SystemSnapshot) : App :=
  { app with current_snapshot := some snapshot }

/-- `InputHandler::handle_filter_input` (only reached in filter mode):
returns the new `in_filter_mode` flag and the produced event. -/
def InputHandler.handle_filter_input (key : KeyEvent) : Bool × InputEvent :=
  match key.code with
  | .Esc => (false, .ClearFilter)
  | .Enter => (false, .Unknown)
  | .Backspace => (true, .FilterBackspace)
  | .CharK c => (true, .FilterChar c)
  | _ => (true, .Unknown)

/-- `InputHandler::handle_key_event`: Ctrl+C quits from any mode; in filter
mode keys go to `handle_filter_input`; otherwise the normal-mode bindings
apply (`/` enters filter mode). -/
def InputHandler.handle_key_event (in_filter_mode : Bool) (key : KeyEvent) :
    Bool × InputEvent :=
  if key.ctrl ∧ key.code = .CharK 99 then (in_filter_mode, .Quit)
  else if in_filter_mode then InputHandler.handle_filter_input key
  else
    match key.code with
    | .Up => (in_filter_mode, .MoveUp)
    | .CharK 107 => (in_filter_mode, .MoveUp)
    | .Down => (in_filter_mode, .MoveDown)
    | .CharK 106 => (in_filter_mode, .MoveDown)
    | .PageUpKey => (in_filter_mode, .PageUp)
    | .PageDownKey => (in_filter_mode, .PageDown)
    | .HomeKey => (in_filter_mode, .Home)
    | .EndKey => (in_filter_mode, .End)
    | .CharK 115 => (in_filter_mode, .CycleSort)
    | .CharK 47 => (true, .StartFilter)
    | .Esc => (in_filter_mode, .ClearFilter)
    | .CharK 99 => (in_filter_mode, .ToggleColumns)
    | .CharK 114 => (in_filter_mode, .ChangeRefreshRate)
    | .CharK 116 => (in_filter_mode, .ToggleTreeView)
    | .CharK 75 => (in_filter_mode, .KillProcess)
    | .CharK 63 => (in_filter_mode, .ShowHelp)
    | .CharK 113 => (in_filter_mode, .Quit)
    | _ => (in_filter_mode, .Unknown)

/-- One keypress as the main loop processes it: the input handler converts
the key (updating its filter-mode flag), then `App::handle_event` runs. -/
def App.press_key (app : App) (key : KeyEvent) : App :=
  let r := InputHandler.handle_key_event app.in_filter_mode key
  App.handle_event { app with in_filter_mode := r.1 } r.2

/-! ## Selection invariants (C3, C10) and filter-mode exits (C9) -/

/-- A minimal concrete process used by concrete-input theorems. -/
def procSample (pid : Nat) : ProcessInfo :=
  ⟨pid, [], [], [], some 0, some 0, 0, 0, 0, .Unknown, 0, none, none⟩

/-- A minimal concrete snapshot holding the given process list. -/
def snapSample (ps : List ProcessInfo) : SystemSnapshot :=
  ⟨0, ⟨[], [], [], 0, 0, none, none, none⟩, [], ⟨0, 0, 0, 0, 0, 0, 0, 0, 0⟩,
   [], [], [], ps⟩

/-- A concrete app state: snapshot, selection, scroll, filter-mode flag. -/
def appSample (snap : Option SystemSnapshot) (sel start : Nat) (mode : Bool) : App :=
  ⟨snap, sel, start, .Cpu, true, [], false, false, false, mode, 10⟩

theorem clamp_selection_preserves (app : App) :
    app.clamp_selection.current_snapshot = app.current_snapshot
    ∧ app.clamp_selection.filter_text = app.filter_text
    ∧ app.clamp_selection.in_filter_mode = app.in_filter_mode := by
  cases happ : app.current_snapshot with
  | none => simp [App.clamp_selection, happ]
  | some snap =>
      simp only [App.clamp_selection, happ]
      split <;> simp [happ]

theorem clamp_selection_bounds (app : App) (snap : SystemSnapshot)
    (h : app.current_snapshot = some snap) :
    ((App.get_filtered_processes app.filter_text snap.processes).length = 0 →
        app.clamp_selection.selected_process_index = 0
        ∧ app.clamp_selection.table_start_index = 0)
    ∧ ((App.get_filtered_processes app.filter_text snap.processes).length ≠ 0 →
        app.clamp_selection.selected_process_index
          < (App.get_filtered_processes app.filter_text snap.processes).length) := by
  simp only [App.clamp_selection, h]
  constructor
  · intro h0
    rw [if_pos h0]
    exact ⟨rfl, rfl⟩
  · intro hne
    rw [if_neg hne]
    simp only
    omega

theorem clamp_selection_at_zero (app : App) (h : app.selected_process_index = 0) :
    app.clamp_selection.selected_process_index = 0 := by
  cases happ : app.current_snapshot with
  | none => simp [App.clamp_selection, happ, h]
  | some snap =>
      simp only [App.clamp_selection, happ]
      split
      · rfl
      · simp [h, Nat.zero_min]

theorem move_selection_snapshot (app : App) (delta : Int) :
    (app.move_selection delta).current_snapshot = app.current_snapshot
    ∧ (app.move_selection delta).filter_text = app.filter_text := by
  unfold App.move_selection
  exact ⟨(clamp_selection_preserves _).1, (clamp_selection_preserves _).2.1⟩

theorem apply_event_snapshot (app : App) (e : InputEvent) :
    (app.apply_event e).current_snapshot = app.current_snapshot := by
  cases e <;>
    simp only [App.apply_event] <;>
    first
      | rfl
      | (split
         · rfl
         · first
             | rfl
             | exact (move_selection_snapshot _ _).1
             | (cases happ : app.current_snapshot <;> simp [happ]))

/-- C3 amended: after every input event processed by `handle_event` (filter
edit, sort change, navigation, toggles, ticks — every event goes through the
trailing `clamp_selection`), with a snapshot present the selection is in
bounds of the filtered list when it is non-empty, and both the selection and
the scroll offset are reset to 0 when the filtered list is empty; the
selection is a `usize`, never negative.  (A data refresh alone does not
re-clamp: see the counterexample.) -/
theorem C3_selection_clamped_after_events (app : App) (e : InputEvent)
    (snap : SystemSnapshot) (h : app.current_snapshot = some snap) :
    ((App.get_filtered_processes (app.handle_event e).filter_text snap.processes).length = 0 →
        (app.handle_event e).selected_process_index = 0
        ∧ (app.handle_event e).table_start_index = 0)
    ∧ ((App.get_filtered_processes (app.handle_event e).filter_text snap.processes).length ≠ 0 →
        (app.handle_event e).selected_process_index
          < (App.get_filtered_processes (app.handle_event e).filter_text snap.processes).length) := by
  have hmid : (app.apply_event e).current_snapshot = some snap := by
    rw [apply_event_snapshot]; exact h
  have := clamp_selection_bounds (app.apply_event e) snap hmid
  rw [App.handle_event, (clamp_selection_preserves (app.apply_event e)).2.1]
  exact this

/-- C3, as stated, is false for a data refresh: `update_data` replaces the
snapshot without re-clamping, so a selection of 2 survives a refresh that
shrinks the filtered list to one process — `2 ≠ min 2 (1 - 1)`. -/
theorem C3_counterexample :
    ((appSample (some (snapSample [procSample 1, procSample 2, procSample 3])) 2 0
        false).update_data (snapSample [procSample 1])).selected_process_index = 2
    ∧ ((appSample (some (snapSample [procSample 1, procSample 2, procSample 3])) 2 0
        false).update_data (snapSample [procSample 1])).current_snapshot
        = some (snapSample [procSample 1])
    ∧ (App.get_filtered_processes
        ((appSample (some (snapSample [procSample 1, procSample 2, procSample 3])) 2 0
          false).update_data (snapSample [procSample 1])).filter_text
        (snapSample [procSample 1]).processes).length = 1
    ∧ ¬ (2 = min 2 (1 - 1)) := by
  exact ⟨rfl, rfl, rfl, by decide⟩

/-- Witness for C3 at a concrete state: a `Tick` with a selection of 9 and a
single matching process clamps the selection into bounds. -/
theorem C3_selection_clamped_after_events_witness :
    (App.get_filtered_processes
        (((appSample (some (snapSample [procSample 1])) 9 4 false).handle_event
          .Tick).filter_text)
        (snapSample [procSample 1]).processes).length ≠ 0
    ∧ (((appSample (some (snapSample [procSample 1])) 9 4 false).handle_event
          .Tick).selected_process_index
        < (App.get_filtered_processes
            (((appSample (some (snapSample [procSample 1])) 9 4 false).handle_event
              .Tick).filter_text)
            (snapSample [procSample 1]).processes).length) := by
  refine ⟨by decide, ?_⟩
  exact (C3_selection_clamped_after_events
    (appSample (some (snapSample [procSample 1])) 9 4 false) .Tick
    (snapSample [procSample 1]) rfl).2 (by decide)

/-- C10: selection movement is saturating: the new pre-clamp index computed
by `move_selection` is exactly `max 0 (old + delta)` (as `Int.toNat` of the
integer sum — no underflow below 0, no wraparound), and moving or paging up
from index 0 leaves the selection at 0; `MoveUp`/`PageUp` events dispatch to
`move_selection` with negative deltas. -/
theorem C10_move_selection_saturating (app : App) (delta : Int) :
    (app.move_selection delta
      = App.clamp_selection { app with selected_process_index :=
          ((app.selected_process_index : Int) + delta).toNat })
    ∧ (app.selected_process_index = 0 → delta ≤ 0 →
        (app.move_selection delta).selected_process_index = 0)
    ∧ (app.show_help = false →
        app.apply_event .MoveUp = app.move_selection (-1)
        ∧ app.apply_event .PageUp = app.move_selection (-(app.get_visible_rows : Int))
        ∧ app.apply_event .MoveDown = app.move_selection 1
        ∧ app.apply_event .PageDown = app.move_selection (app.get_visible_rows : Int)) := by
  have harith : (if delta < 0 then app.selected_process_index - (-delta).toNat
      else app.selected_process_index + delta.toNat)
      = ((app.selected_process_index : Int) + delta).toNat := by
    split <;> omega
  refine ⟨?_, ?_, ?_⟩
  · rw [App.move_selection]
    simp only [harith]
  · intro h0 hneg
    rw [App.move_selection]
    apply clamp_selection_at_zero
    simp only [h0]
    split <;> omega
  · intro hh
    exact ⟨by simp [App.apply_event, hh], by simp [App.apply_event, hh],
      by simp [App.apply_event, hh], by simp [App.apply_event, hh]⟩

/-- Witness for C10: paging up by 7 from selection 0 stays at 0. -/
theorem C10_move_selection_saturating_witness :
    ((App.mk none 0 0 .Cpu true [] false false false false 10).move_selection
      (-7)).selected_process_index = 0 :=
  (C10_move_selection_saturating
    (App.mk none 0 0 .Cpu true [] false false false false 10) (-7)).2.1 rfl (by decide)

/-- A key sequence as the main loop processes it. -/
def pressKeys (app : App) (keys : List KeyEvent) : App :=
  keys.foldl App.press_key app

/-- C9 amended: while in filter-editing mode, Enter exits filter mode and
keeps the accumulated filter text applied, and Escape always exits filter
mode; Escape additionally resets the filter text to empty when the help
overlay is closed, but when the help overlay is open the `ClearFilter`
event is swallowed by the help guard and the filter text is preserved. -/
theorem C9_filter_mode_exits (app : App) (hm : app.in_filter_mode = true) :
    ((app.press_key ⟨.Enter, false⟩).in_filter_mode = false
     ∧ (app.press_key ⟨.Enter, false⟩).filter_text = app.filter_text)
    ∧ (app.press_key ⟨.Esc, false⟩).in_filter_mode = false
    ∧ (app.show_help = false →
        (app.press_key ⟨.Esc, false⟩).filter_text = [])
    ∧ (app.show_help = true →
        (app.press_key ⟨.Esc, false⟩).filter_text = app.filter_text) := by
  have henter : InputHandler.handle_key_event app.in_filter_mode ⟨.Enter, false⟩
      = (false, .Unknown) := by
    simp [InputHandler.handle_key_event, hm, InputHandler.handle_filter_input]
  have hesc : InputHandler.handle_key_event app.in_filter_mode ⟨.Esc, false⟩
      = (false, .ClearFilter) := by
    simp [InputHandler.handle_key_event, hm, InputHandler.handle_filter_input]
  refine ⟨?_, ?_, ?_, ?_⟩
  · rw [App.press_key, henter]
    rw [App.handle_event]
    rw [(clamp_selection_preserves _).2.2, (clamp_selection_preserves _).2.1]
    constructor <;> simp [App.apply_event]
  · rw [App.press_key, hesc, App.handle_event, (clamp_selection_preserves _).2.2]
    cases happ : app.show_help <;> simp [App.apply_event, happ]
  · intro hh
    rw [App.press_key, hesc, App.handle_event, (clamp_selection_preserves _).2.1]
    simp [App.apply_event, hh]
  · intro hh
    rw [App.press_key, hesc, App.handle_event, (clamp_selection_preserves _).2.1]
    simp [App.apply_event, hh]

/-- C9, as stated, is false in a reachable state: starting from a fresh
app, the sequence `/`, `a`, `b`, Enter, `?`, `/` leaves the app in filter
mode with the help overlay open (the handler set the flag while the
`StartFilter` event was swallowed by the help guard); Escape then exits
filter mode but the `ClearFilter` event is also swallowed, so the filter
text `"ab"` is NOT reset to the empty string. -/
theorem C9_counterexample :
    (pressKeys (appSample none 0 0 false)
        [⟨.CharK 47, false⟩, ⟨.CharK 97, false⟩, ⟨.CharK 98, false⟩,
         ⟨.Enter, false⟩, ⟨.CharK 63, false⟩,
         ⟨.CharK 47, false⟩]).in_filter_mode = true
    ∧ (pressKeys (appSample none 0 0 false)
        [⟨.CharK 47, false⟩, ⟨.CharK 97, false⟩, ⟨.CharK 98, false⟩,
         ⟨.Enter, false⟩, ⟨.CharK 63, false⟩,
         ⟨.CharK 47, false⟩]).show_help = true
    ∧ (pressKeys (appSample none 0 0 false)
        [⟨.CharK 47, false⟩, ⟨.CharK 97, false⟩, ⟨.CharK 98, false⟩,
         ⟨.Enter, false⟩, ⟨.CharK 63, false⟩, ⟨.CharK 47, false⟩,
         ⟨.Esc, false⟩]).in_filter_mode = false
    ∧ (pressKeys (appSample none 0 0 false)
        [⟨.CharK 47, false⟩, ⟨.CharK 97, false⟩, ⟨.CharK 98, false⟩,
         ⟨.Enter, false⟩, ⟨.CharK 63, false⟩, ⟨.CharK 47, false⟩,
         ⟨.Esc, false⟩]).filter_text = [97, 98]
    ∧ ([97, 98] : Str) ≠ [] := by
  exact ⟨rfl, rfl, rfl, rfl, by decide⟩

/-- Witness for C9 at concrete states with filter text `"ab"`: Enter
preserves the text, Escape clears it with the help overlay closed and
preserves it with the help overlay open. -/
theorem C9_filter_mode_exits_witness :
    (((App.mk none 0 0 .Cpu true [97, 98] false false false true 10).press_key
        ⟨.Enter, false⟩).filter_text = [97, 98])
    ∧ (((App.mk none 0 0 .Cpu true [97, 98] false false false true 10).press_key
        ⟨.Esc, false⟩).filter_text = [])
    ∧ (((App.mk none 0 0 .Cpu true [97, 98] true false false true 10).press_key
        ⟨.Esc, false⟩).filter_text = [97, 98]) :=
  ⟨(C9_filter_mode_exits
      (App.mk none 0 0 .Cpu true [97, 98] false false false true 10) rfl).1.2,
   (C9_filter_mode_exits
      (App.mk none 0 0 .Cpu true [97, 98] false false false true 10) rfl).2.2.1 rfl,
   (C9_filter_mode_exits
      (App.mk none 0 0 .Cpu true [97, 98] true false false true 10) rfl).2.2.2 rfl⟩

/-! ## Table column layout (crates/tui/src/ui/layout.rs) -/

/-- `layout.rs` `Rect` (`u16` fields as `Nat`; the saturating `u16`
operations are `Nat` truncated subtraction and plain addition, faithful in
the value ranges a terminal can produce). -/
structure Rect where
  x : Nat
  y : Nat
  width : Nat
  height : Nat
deriving DecidableEq, Repr

/-- The per-column preferred widths matched inside `Layout::table_layout`. -/
def columnPreferredWidth (col : String) : Nat :=
  match col with
  | "PID" => 8
  | "USER" => 12
  | "CPU%" => 6
  | "MEM%" => 6
  | "RSS" => 8
  | "VSZ" => 8
  | "THR" => 4
  | "STATE" => 6
  | "TIME" => 8
  | "NAME" => 20
  | _ => 10

/-- The final loop of `Layout::table_layout`: one `Rect` per actual width,
advancing the x cursor by each width. -/
def buildRects (x y height : Nat) : List Nat → List Rect
  | [] => []
  | w :: rest => ⟨x, y, w, height⟩ :: buildRects (x + w) y height rest

/-- The `actual_widths` computation of `Layout::table_layout`: preferred
widths per column; if they fit into `total_width`, the (first) NAME column
absorbs the remaining slack; otherwise every column is scaled
proportionally with a minimum of 1 cell. -/
def Layout.actualWidths (total_width : Nat) (columns : List String) : List Nat :=
  let column_widths := columns.map columnPreferredWidth
  let total_preferred := column_widths.sum
  if total_preferred ≤ total_width then
    match columns.findIdx? (fun col => col == "NAME") with
    | some name_idx =>
        let used_width :=
          ((column_widths.enum.filter (fun p => p.1 != name_idx)).map Prod.snd).sum
        column_widths.set name_idx (total_width - used_width)
    | none => column_widths
  else
    column_widths.map (fun w => max ((w * total_width) / total_preferred) 1)

/-- `Layout::table_layout`: early-out on an empty column set or zero width,
otherwise one `Rect` per column at the computed actual widths. -/
def Layout.table_layout (area : Rect) (columns : List String) : List Rect :=
  if columns.isEmpty || area.width == 0 then []
  else buildRects area.x area.y area.height (Layout.actualWidths area.width columns)

theorem buildRects_widths (x y h : Nat) (ws : List Nat) :
    (buildRects x y h ws).map Rect.width = ws := by
  induction ws generalizing x with
  | nil => rfl
  | cons a t ih => simp [buildRects, ih]

theorem columnPreferredWidth_pos (col : String) : 1 ≤ columnPreferredWidth col := by
  unfold columnPreferredWidth
  split <;> omega

theorem sumEnumFromFilterAll (l : List Nat) : ∀ s i, i < s →
    ((((List.enumFrom s l).filter (fun p => p.1 != i)).map Prod.snd).sum = l.sum) := by
  induction l with
  | nil => intro s i _; rfl
  | cons a t ih =>
      intro s i h
      have hne : (s != i) = true := by
        simp only [bne_iff_ne]
        omega
      simp only [List.enumFrom, List.filter, hne, List.map, List.sum_cons]
      rw [ih (s + 1) i (by omega)]

theorem sumEnumFromFilter (l : List Nat) : ∀ s i, s ≤ i → i - s < l.length →
    ((((List.enumFrom s l).filter (fun p => p.1 != i)).map Prod.snd).sum
      + l.getD (i - s) 0 = l.sum) := by
  induction l with
  | nil => intro s i _ h; simp at h
  | cons a t ih =>
      intro s i hs hlen
      by_cases hsi : s = i
      · subst hsi
        have hne : (s != s) = false := by simp
        simp only [List.enumFrom, List.filter, hne, Nat.sub_self, List.getD, List.sum_cons]
        rw [sumEnumFromFilterAll t (s + 1) s (by omega)]
        simp [Nat.add_comm]
      · have hne : (s != i) = true := by
          simp only [bne_iff_ne]
          exact hsi
        have hs1 : s + 1 ≤ i := by omega
        have hstep : i - s = (i - (s + 1)) + 1 := by omega
        simp only [List.enumFrom, List.filter, hne, List.map, List.sum_cons]
        rw [hstep]
        simp only [List.getD_cons_succ]
        have := ih (s + 1) i hs1 (by simp at hlen; omega)
        omega

theorem sum_map_max_one_le (g : Nat → Nat) (l : List Nat) :
    (l.map fun w => max (g w) 1).sum ≤ (l.map g).sum + l.length := by
  induction l with
  | nil => simp
  | cons a t ih =>
      simp only [List.map, List.sum_cons, List.length_cons]
      have : max (g a) 1 ≤ g a + 1 := by omega
      omega

theorem sum_map_mul_const (l : List Nat) (c : Nat) :
    (l.map fun w => w * c).sum = l.sum * c := by
  induction l with
  | nil => simp
  | cons a t ih => simp [Nat.add_mul, ih]

theorem sum_map_div_le (l : List Nat) (d : Nat) :
    (l.map fun w => w / d).sum ≤ l.sum / d := by
  induction l with
  | nil => simp
  | cons a t ih =>
      rcases Nat.eq_zero_or_pos d with h0 | hpos
      · subst h0
        simp
      · simp only [List.map, List.sum_cons]
        have step : a / d + t.sum / d ≤ (a + t.sum) / d := by
          rw [Nat.le_div_iff_mul_le hpos, Nat.add_mul]
          exact Nat.add_le_add (Nat.div_mul_le_self a d) (Nat.div_mul_le_self t.sum d)
        omega

theorem findIdx?_found {α : Type} (p : α → Bool) :
    ∀ (l : List α) (s i : Nat), l.findIdx? p s = some i →
      s ≤ i ∧ i - s < l.length ∧ ∃ x, l.get? (i - s) = some x ∧ p x = true := by
  intro l
  induction l with
  | nil => intro s i h; simp at h
  | cons a t ih =>
      intro s i h
      rw [List.findIdx?_cons] at h
      by_cases hpa : p a = true
      · rw [if_pos hpa] at h
        have hsi : s = i := by injection h
        subst hsi
        exact ⟨le_refl _, by simp, a, by simp, hpa⟩
      · rw [if_neg hpa] at h
        obtain ⟨hs1, hlen, x, hg, hpx⟩ := ih (s + 1) i h
        refine ⟨by omega, ?_, x, ?_, hpx⟩
        · simp only [List.length_cons]
          omega
        · have hstep : i - s = (i - (s + 1)) + 1 := by omega
          rw [hstep, List.get?_cons_succ]
          exact hg

theorem usedWidth_identity (cols : List String) (name_idx : Nat)
    (hfind : cols.findIdx? (fun col => col == "NAME") = some name_idx) :
    ((((cols.map columnPreferredWidth).enum.filter
        (fun p => p.1 != name_idx)).map Prod.snd).sum + 20
      = (cols.map columnPreferredWidth).sum)
    ∧ name_idx < cols.length := by
  obtain ⟨-, hlt, x, hget, hpx⟩ := findIdx?_found _ cols 0 name_idx hfind
  simp only [Nat.sub_zero] at hlt hget
  have hx : x = "NAME" := by simpa using hpx
  subst hx
  have hlen : name_idx < (cols.map columnPreferredWidth).length := by
    rw [List.length_map]
    exact hlt
  have hgetD : (cols.map columnPreferredWidth).getD name_idx 0 = 20 := by
    rw [List.getD_eq_getElem?_getD, List.getElem?_map, ← List.get?_eq_getElem?, hget]
    rfl
  have hsum := sumEnumFromFilter (cols.map columnPreferredWidth) 0 name_idx
    (Nat.zero_le _) (by simpa using hlen)
  simp only [Nat.sub_zero] at hsum
  rw [hgetD] at hsum
  constructor
  · rw [List.enum]
    exact hsum
  · exact hlt

theorem sum_set_getD (cw : List Nat) (i v : Nat) (hi : i < cw.length) :
    (cw.set i v).sum + cw.getD i 0 = cw.sum + v := by
  have hset := List.sum_set cw i v
  rw [if_pos hi] at hset
  have htd : (cw.take (i + 1)).sum + (cw.drop (i + 1)).sum = cw.sum :=
    List.sum_take_add_sum_drop cw (i + 1)
  have hts : (cw.take (i + 1)).sum = (cw.take i).sum + cw[i] :=
    List.sum_take_succ cw i hi
  have hg : cw.getD i 0 = cw[i] := by
    rw [List.getD_eq_getElem?_getD, List.getElem?_eq_getElem hi, Option.getD_some]
  omega

theorem actualWidths_spec (W : Nat) (cols : List String) (hc : cols ≠ []) :
    (Layout.actualWidths W cols).length = cols.length
    ∧ (∀ w ∈ Layout.actualWidths W cols, 1 ≤ w)
    ∧ (Layout.actualWidths W cols).sum ≤ W + cols.length
    ∧ ((cols.map columnPreferredWidth).sum ≤ W →
        (Layout.actualWidths W cols).sum ≤ W) := by
  have hTpos : 1 ≤ (cols.map columnPreferredWidth).sum := by
    cases cols with
    | nil => exact absurd rfl hc
    | cons a t =>
        simp only [List.map, List.sum_cons]
        have := columnPreferredWidth_pos a
        omega
  rw [Layout.actualWidths]
  simp only
  split
  case isTrue hfits =>
    split
    case h_1 name_idx hfind =>
      obtain ⟨hused, hlt⟩ := usedWidth_identity cols name_idx hfind
      have hlen : name_idx < (cols.map columnPreferredWidth).length := by
        rw [List.length_map]
        exact hlt
      have hsumset := sum_set_getD (cols.map columnPreferredWidth) name_idx
        (W - (((cols.map columnPreferredWidth).enum.filter
          (fun p => p.1 != name_idx)).map Prod.snd).sum) hlen
      have hgetD : (cols.map columnPreferredWidth).getD name_idx 0 = 20 := by
        have h20 : (((cols.map columnPreferredWidth).enum.filter
            (fun p => p.1 != name_idx)).map Prod.snd).sum
            + (cols.map columnPreferredWidth).getD name_idx 0
            = (cols.map columnPreferredWidth).sum := by
          have := sumEnumFromFilter (cols.map columnPreferredWidth) 0 name_idx
            (Nat.zero_le _) (by simpa using hlen)
          simpa [List.enum] using this
        omega
      refine ⟨by rw [List.length_set, List.length_map], ?_, ?_, ?_⟩
      · intro w hw
        rcases List.mem_or_eq_of_mem_set hw with h | h
        · obtain ⟨c, _, rfl⟩ := List.mem_map.mp h
          exact columnPreferredWidth_pos c
        · subst h
          omega
      · rw [hgetD] at hsumset
        omega
      · intro _
        rw [hgetD] at hsumset
        omega
    case h_2 =>
      refine ⟨List.length_map _ _, ?_, by omega, fun _ => hfits⟩
      intro w hw
      obtain ⟨c, _, rfl⟩ := List.mem_map.mp hw
      exact columnPreferredWidth_pos c
  case isFalse hscale =>
    refine ⟨by rw [List.length_map, List.length_map], ?_, ?_, ?_⟩
    · intro w hw
      obtain ⟨c, _, rfl⟩ := List.mem_map.mp hw
      exact Nat.le_max_right _ 1
    · have h1 := sum_map_max_one_le
        (fun w => (w * W) / (cols.map columnPreferredWidth).sum)
        (cols.map columnPreferredWidth)
      have h2 : ((cols.map columnPreferredWidth).map
          (fun w => (w * W) / (cols.map columnPreferredWidth).sum)).sum ≤ W := by
        have hcomp : ((cols.map columnPreferredWidth).map
            (fun w => (w * W) / (cols.map columnPreferredWidth).sum))
            = (((cols.map columnPreferredWidth).map (fun w => w * W)).map
                (fun w => w / (cols.map columnPreferredWidth).sum)) := by
          simp only [List.map_map, Function.comp]
          rfl
        rw [hcomp]
        have h3 := sum_map_div_le ((cols.map columnPreferredWidth).map (fun w => w * W))
          (cols.map columnPreferredWidth).sum
        rw [sum_map_mul_const] at h3
        have h4 : (cols.map columnPreferredWidth).sum * W
            / (cols.map columnPreferredWidth).sum = W :=
          Nat.mul_div_cancel_left W (by omega)
        omega
      have hl : ((cols.map columnPreferredWidth).map
          (fun w => max ((w * W) / (cols.map columnPreferredWidth).sum) 1)).length
          = cols.length := by
        rw [List.length_map, List.length_map]
      rw [List.length_map] at h1
      omega
    · intro hle
      omega

/-- C6 amended: for every table area of width ≥ 1 and non-empty column set,
`table_layout` emits exactly one width per column and every width is at
least 1 cell (no column is omitted); the widths sum to at most W whenever
the preferred widths fit (`total_preferred ≤ W`), but in the proportional
scaling branch the 1-cell minimum clamp can push the sum above W — it is
only bounded by W plus the number of columns. -/
theorem C6_table_layout_widths (area : Rect) (columns : List String)
    (hw : 1 ≤ area.width) (hc : columns ≠ []) :
    (Layout.table_layout area columns).length = columns.length
    ∧ (∀ r ∈ Layout.table_layout area columns, 1 ≤ r.width)
    ∧ ((Layout.table_layout area columns).map Rect.width).sum
        ≤ area.width + columns.length
    ∧ ((columns.map columnPreferredWidth).sum ≤ area.width →
        ((Layout.table_layout area columns).map Rect.width).sum ≤ area.width) := by
  have hcne : columns.isEmpty = false := by
    cases columns with
    | nil => exact absurd rfl hc
    | cons a t => rfl
  have hwne : (area.width == 0) = false := by
    rw [beq_eq_false_iff_ne]
    omega
  have htl : Layout.table_layout area columns
      = buildRects area.x area.y area.height (Layout.actualWidths area.width columns) := by
    rw [Layout.table_layout, hcne, hwne]
    rfl
  obtain ⟨hlen, hmin, hsum, hfits⟩ := actualWidths_spec area.width columns hc
  have hwidths : (Layout.table_layout area columns).map Rect.width
      = Layout.actualWidths area.width columns := by
    rw [htl, buildRects_widths]
  refine ⟨?_, ?_, ?_, ?_⟩
  · have := congrArg List.length hwidths
    rw [List.length_map] at this
    rw [this, hlen]
  · intro r hr
    have : r.width ∈ (Layout.table_layout area columns).map Rect.width :=
      List.mem_map_of_mem Rect.width hr
    rw [hwidths] at this
    exact hmin _ this
  · rw [hwidths]
    exact hsum
  · intro h
    rw [hwidths]
    exact hfits h

/-- C6, as stated, is false: at width 1 with columns PID and USER the
preferred sum 20 exceeds 1, both scaled widths clamp to the 1-cell minimum,
and the emitted widths sum to 2 > 1. -/
theorem C6_counterexample :
    ((Layout.table_layout ⟨0, 0, 1, 5⟩ ["PID", "USER"]).map Rect.width).sum = 2
    ∧ ¬ ((Layout.table_layout ⟨0, 0, 1, 5⟩ ["PID", "USER"]).map Rect.width).sum
        ≤ (1 : Nat) := by
  constructor
  · rfl
  · decide

/-- Witness for C6 at a concrete input: six columns in an 80-cell area. -/
theorem C6_table_layout_widths_witness :
    ((Layout.table_layout ⟨0, 0, 80, 10⟩
        ["PID", "NAME", "USER", "CPU%", "MEM%", "STATE"]).map Rect.width).sum
      ≤ 80 + 6 :=
  (C6_table_layout_widths ⟨0, 0, 80, 10⟩ ["PID", "NAME", "USER", "CPU%", "MEM%", "STATE"]
    (by decide) (by decide)).2.2.1

/-! ## Configuration loading and merging (crates/core/src/config.rs)

File reading and JSON parsing are external: `load` receives the
already-parsed config of the first readable default-location file and of
the `--json-config` file, when present.  Error message texts are elided
(empty byte strings). -/

/-- `model.rs` `Theme`. -/
inductive Theme where
  | Dark | Light
deriving DecidableEq, Repr

/-- `model.rs` `ProcessColumns`. -/
structure ProcessColumns where
  pid : Bool
  name : Bool
  user : Bool
  cpu_percent : Bool
  memory_percent : Bool
  memory_rss : Bool
  memory_vsz : Bool
  threads : Bool
  state : Bool
  start_time : Bool
deriving DecidableEq, Repr

/-- `ProcessColumns::default`. -/
def ProcessColumns.default : ProcessColumns :=
  ⟨true, true, true, true, true, true, false, false, true, false⟩

/-- `config.rs` `Config`. -/
structure Config where
  refresh_ms : Nat
  theme : Theme
  no_color : Bool
  initial_sort : SortKey
  process_columns : ProcessColumns
  tree_view : Bool
  use_procfs : Bool
deriving DecidableEq, Repr

/-- `Config::default`; `use_procfs` defaults to `cfg!(feature = "linux_procfs")`,
passed in as `procfsFeature`. -/
def Config.default (procfsFeature : Bool) : Config :=
  ⟨2000, .Dark, false, .Cpu, ProcessColumns.default, false, procfsFeature⟩

/-- The field-by-field difference test `Config::merge` applies to
`process_columns`. -/
def processColumnsDiffer (pc : ProcessColumns) : Bool :=
  pc.pid != ProcessColumns.default.pid
  || pc.name != ProcessColumns.default.name
  || pc.user != ProcessColumns.default.user
  || pc.cpu_percent != ProcessColumns.default.cpu_percent
  || pc.memory_percent != ProcessColumns.default.memory_percent
  || pc.memory_rss != ProcessColumns.default.memory_rss
  || pc.memory_vsz != ProcessColumns.default.memory_vsz
  || pc.threads != ProcessColumns.default.threads
  || pc.state != ProcessColumns.default.state
  || pc.start_time != ProcessColumns.default.start_time

/-- `Config::merge` — "Only override non-default values", as written:
note the `refresh_ms` guard compares against the literal `250` although
`Config::default` sets `refresh_ms = 2000`. -/
def Config.merge (c other : Config) : Config :=
  let c := if other.refresh_ms != 250 then { c with refresh_ms := other.refresh_ms } else c
  let c := if other.theme != Theme.Dark then { c with theme := other.theme } else c
  let c := if other.no_color then { c with no_color := other.no_color } else c
  let c := if other.initial_sort != SortKey.Cpu then
      { c with initial_sort := other.initial_sort } else c
  let c := if processColumnsDiffer other.process_columns then
      { c with process_columns := other.process_columns } else c
  let c := if other.tree_view then { c with tree_view := other.tree_view } else c
  let c := if !other.use_procfs then { c with use_procfs := other.use_procfs } else c
  c

/-- `config.rs` `CliConfig`. -/
structure CliConfig where
  refresh_ms : Option Nat
  theme : Option Theme
  no_color : Bool
deriving DecidableEq, Repr

/-- `Config::apply_cli_overrides`. -/
def Config.apply_cli_overrides (c : Config) (cli : CliConfig) : Config :=
  let c := match cli.refresh_ms with
    | some refresh => { c with refresh_ms := refresh }
    | none => c
  let c := match cli.theme with
    | some theme => { c with theme := theme }
    | none => c
  let c := if cli.no_color then { c with no_color := true } else c
  c

/-- `Config::validate`: the refresh interval must lie in 50..=10000 ms. -/
def Config.validate (c : Config) : Except CoreError Unit :=
  if c.refresh_ms < 50 then .error (.configErr [])
  else if c.refresh_ms > 10000 then .error (.configErr [])
  else .ok ()

/-- `Config::load`: defaults, then the first readable default-location
file (when any), then the explicit `--json-config` file (when given), then
CLI overrides, then validation. -/
def Config.load (procfsFeature : Bool) (defaultFileConfig : Option Config)
    (jsonConfig : Option Config) (cli : Option CliConfig) : Except CoreError Config :=
  let config := Config.default procfsFeature
  let config := match defaultFileConfig with
    | some fileCfg => config.merge fileCfg
    | none => config
  let config := match jsonConfig with
    | some fileCfg => config.merge fileCfg
    | none => config
  let config := match cli with
    | some cliCfg => config.apply_cli_overrides cliCfg
    | none => config
  match config.validate with
  | .ok _ => .ok config
  | .error e => .error e

/-- C7: the code contradicts its own "Only override non-default values"
policy for `refresh_ms`.  A config file explicitly setting the non-default,
valid value `refresh_ms = 250` is silently ignored — `merge` compares
against the stale constant 250 instead of the actual default 2000, so the
result keeps 2000.  The claim's CLI scenario itself does hold: with
`refresh_ms = 2000` configured and `--refresh 500` on the CLI the effective
value is 500. -/
theorem C7_merge_refresh_bug :
    ((Config.default true).merge
        { Config.default true with refresh_ms := 250 }).refresh_ms = 2000
    ∧ (Config.load true (some { Config.default true with refresh_ms := 250 })
        none none).map Config.refresh_ms = .ok 2000
    ∧ (Config.load true (some { Config.default true with refresh_ms := 2000 })
        none (some ⟨some 500, none, false⟩)).map Config.refresh_ms = .ok 500 := by
  exact ⟨rfl, rfl, rfl⟩

/-! ## Top-bar text truncation (crates/tui/src/ui/widgets.rs `TopBar::render`)

A rendered string is modelled as the list of its characters, each
character as the nonempty list of its UTF-8 bytes (an ASCII character is a
singleton).  Rust `String::len` is the total byte count; the byte slice
`&content[..k]` panics when `k` is not a character boundary or exceeds the
length, modelled as `none`.  A character occupies one terminal cell. -/

/-- Rust `String::len`: total UTF-8 byte count. -/
def byteLen (s : List (List Nat)) : Nat := (s.map List.length).sum

/-- `&content[..k]`: `none` models the byte-slice panic (mid-character
boundary, or `k` beyond the end). -/
def byteSlice? : List (List Nat) → Nat → Option (List (List Nat))
  | _, 0 => some []
  | [], _ + 1 => none
  | c :: rest, k + 1 =>
      if c.length ≤ k + 1 then
        (byteSlice? rest (k + 1 - c.length)).map (c :: ·)
      else none

/-- The truncation/padding step of `TopBar::render`: text longer (in bytes)
than the region width is cut at `max_width - 3` bytes and suffixed with
`"..."`; otherwise it is padded with spaces to `max_width` characters
(`format!` pads by character count). -/
def TopBar.renderText (content : List (List Nat)) (max_width : Nat) :
    Option (List (List Nat)) :=
  if max_width < byteLen content then
    (byteSlice? content (max_width - 3)).map (· ++ [[46], [46], [46]])
  else
    some (content ++ List.replicate (max_width - content.length) [32])

theorem byteLen_eq_length (content : List (List Nat))
    (h : ∀ c ∈ content, c.length = 1) : byteLen content = content.length := by
  induction content with
  | nil => rfl
  | cons c rest ih =>
      simp only [byteLen, List.map, List.sum_cons, List.length_cons] at *
      rw [h c (List.mem_cons_self _ _), ih (fun x hx => h x (List.mem_cons_of_mem _ hx))]
      omega

theorem byteSlice?_ascii (content : List (List Nat)) :
    ∀ k, (∀ c ∈ content, c.length = 1) → k ≤ content.length →
    ∃ pre, byteSlice? content k = some pre ∧ pre.length = k := by
  induction content with
  | nil =>
      intro k _ hk
      have : k = 0 := by simpa using hk
      subst this
      exact ⟨[], rfl, rfl⟩
  | cons c rest ih =>
      intro k hc hk
      cases k with
      | zero => exact ⟨[], rfl, rfl⟩
      | succ k =>
          have h1 : c.length = 1 := hc c (List.mem_cons_self _ _)
          obtain ⟨pre, hpre, hlen⟩ := ih k
            (fun x hx => hc x (List.mem_cons_of_mem _ hx))
            (by
              simp only [List.length_cons] at hk
              omega)
          refine ⟨c :: pre, ?_, by simp [hlen]⟩
          simp only [byteSlice?, h1]
          rw [if_pos (by omega)]
          have : k + 1 - 1 = k := by omega
          rw [this, hpre]
          rfl

/-- C8 amended: for single-byte (ASCII) content and a region at least as
wide as the ellipsis (width ≥ 3), the truncation never panics and the
printed output occupies at most the region's width (exactly the width:
short text is space-padded, long text becomes `width - 3` characters plus
the 3-character ellipsis).  Without those hypotheses the claim fails: a
region narrower than the ellipsis receives the 3-cell `"..."`, and slicing
multi-byte text at a non-boundary panics (see the counterexample). -/
theorem C8_truncation_bounded (content : List (List Nat)) (max_width : Nat)
    (hchars : ∀ c ∈ content, c.length = 1) (hw : 3 ≤ max_width) :
    ∃ out, TopBar.renderText content max_width = some out
      ∧ out.length ≤ max_width := by
  rw [TopBar.renderText]
  have hbl := byteLen_eq_length content hchars
  by_cases hfit : max_width < byteLen content
  · rw [if_pos hfit]
    obtain ⟨pre, hpre, hlen⟩ := byteSlice?_ascii content (max_width - 3) hchars
      (by omega)
    rw [hpre]
    refine ⟨pre ++ [[46], [46], [46]], rfl, ?_⟩
    simp only [List.length_append, hlen]
    simp
    omega
  · rw [if_neg hfit]
    refine ⟨content ++ List.replicate (max_width - content.length) [32], rfl, ?_⟩
    simp only [List.length_append, List.length_replicate]
    omega

/-- C8, as stated, is false on two counts: a 2-cell region still receives
the full 3-cell ellipsis (output wider than the region), and byte-slicing
two-byte characters at byte 1 hits a non-boundary — a panic (`none`). -/
theorem C8_counterexample :
    ((TopBar.renderText [[97], [98], [99], [100], [101]] 2).map List.length
      = some 3)
    ∧ ¬ (3 ≤ 2)
    ∧ TopBar.renderText [[195, 169], [195, 169], [195, 169]] 4 = none := by
  exact ⟨rfl, by decide, rfl⟩

/-- Witness for C8 at a concrete input: 5 ASCII characters in width 4 are
truncated to 1 character plus the ellipsis, within the region. -/
theorem C8_truncation_bounded_witness :
    ∃ out, TopBar.renderText [[97], [98], [99], [100], [101]] 4 = some out
      ∧ out.length ≤ 4 :=
  C8_truncation_bounded [[97], [98], [99], [100], [101]] 4 (by decide) (by decide)

/-! ## Process sorting (crates/tui/src/app.rs `App::sort_processes`)

Rust's `slice::sort_by` is a stable merge sort driven by an
`Ordering`-returning comparator; it is modelled by `List.mergeSort` with
the test "comparator does not say `gt`" (a stable merge sort takes from
the left run on ties, matching Rust's stability guarantee). -/

end Kacemon
